import Mathlib

/-!
Verification of the object-storage client (`storage/object.go` of the
vendored `go-oracle-terraform` library).  The Go code is shallowly embedded:
Go `map[string]string` values become association lists whose most recent
insert shadows older bindings, `strconv.Atoi` becomes an explicit decimal
parser, and the external transport collaborator (`createResourceBody`,
`getResourceHeaders`, `deleteResource`) becomes a record of functions that
each operation receives as a parameter.
-/

deriving instance DecidableEq for Except

namespace storage

/-- Association-list model of a Go `map[string]string`: an insert prepends
its binding, lookup scans from the most recent insert, so later inserts
shadow earlier ones exactly as map assignment overwrites. -/
abbrev SMap : Type := List (String × String)

/-- Go map assignment `m[k] = v`. -/
def SMap.insert (m : SMap) (k v : String) : SMap := (k, v) :: m

/-- Go map lookup `m[k]`, `none` when the key is absent. -/
def SMap.get? (m : SMap) (k : String) : Option String :=
  (List.find? (fun e => e.1 == k) m).map (fun e => e.2)

/-- Header constants from `object.go`. -/
def h_AcceptRanges : String := "Accept-Ranges"

def h_ContentDisposition : String := "Content-Disposition"

def h_ContentEncoding : String := "Content-Encoding"

def h_ContentLength : String := "Content-Length"

def h_ContentType : String := "Content-Type"

def h_CopyFrom : String := "X-Copy-From"

def h_Date : String := "Date"

def h_DeleteAt : String := "X-Delete-At"

def h_ETag : String := "ETag"

def h_LastModified : String := "Last-Modified"

def h_Newest : String := "X-Newest"

def h_ObjectManifest : String := "X-Object-Manifest"

def h_Range : String := "Range"

def h_Timestamp : String := "X-Timestamp"

def h_TransactionID : String := "X-Trans-Id"

def h_TransferEncoding : String := "Transfer-Encoding"

def h_MetadataPrefix : String := "X-Object-Meta-"

/-- Opaque stand-in for the `io.ReadSeeker` request body: the client code
inspects only its presence (`Option ReadSeeker` models the nilable
interface value) and otherwise hands it to the transport unchanged. -/
structure ReadSeeker where
  bytes : List UInt8
deriving Repr, DecidableEq

/-- Errors surfaced by the client.  `errorf` models `fmt.Errorf` (the
spec's ValidationError), `numError` models the error returned by
`strconv.Atoi` (the spec's FormatError), and `transport` is an opaque
error propagated from the transport collaborator. -/
inductive GoError where
  | errorf (msg : String)
  | numError (fn : String) (num : String)
  | transport (msg : String)
deriving Repr, DecidableEq

/-- The spec's ValidationError class: errors built with `fmt.Errorf`. -/
def GoError.isValidationError : GoError → Bool
  | .errorf _ => true
  | _ => false

/-- The spec's FormatError class: `strconv` parse failures. -/
def GoError.isFormatError : GoError → Bool
  | .numError _ _ => true
  | _ => false

/-- Decimal digit value, `none` for a non-digit. -/
def digitVal (c : Char) : Option Nat :=
  if '0' ≤ c ∧ c ≤ '9' then some (c.toNat - ('0').toNat) else none

/-- Accumulate decimal digits; fails on the first non-digit. -/
def parseDigits : List Char → Nat → Option Nat
  | [], acc => some acc
  | c :: rest, acc =>
    match digitVal c with
    | some d => parseDigits rest (acc * 10 + d)
    | none => none

/-- Peel an optional leading sign, reporting whether it was a minus. -/
def stripSign : List Char → Bool × List Char
  | '-' :: rest => (true, rest)
  | '+' :: rest => (false, rest)
  | cs => (false, cs)

/-- Model of `strconv.Atoi`: an optional sign followed by at least one
decimal digit; anything else is a `numError` carrying the input. -/
def atoi (s : String) : Except GoError Int :=
  match stripSign s.data with
  | (_, []) => .error (.numError ("Atoi") s)
  | (sg, ds) =>
    match parseDigits ds 0 with
    | some n => .ok (if sg then -(n : Int) else (n : Int))
    | none => .error (.numError ("Atoi") s)

/-- Go `fmt.Sprintf` with verb `%t` on a bool. -/
def fmtBool (b : Bool) : String := if b then "true" else "false"

/-- Model of `strings.HasPrefix` over the character sequence. -/
def hasPrefixGo (s p : String) : Bool := p.data.isPrefixOf s.data

/-- Model of `strings.TrimPrefix`. -/
def trimPrefixGo (s p : String) : String :=
  if hasPrefixGo s p then String.mk (s.data.drop p.data.length) else s

/-- Worker for `strings.Split` with a one-character separator: `acc` holds
the characters of the current field in reverse. -/
def splitCharAux (sep : Char) : List Char → List Char → List String
  | [], acc => [String.mk acc.reverse]
  | c :: rest, acc =>
    if c = sep then String.mk acc.reverse :: splitCharAux sep rest []
    else splitCharAux sep rest (c :: acc)

/-- Model of Go `strings.Split s sep` for a one-character separator (the
code only splits on `"/"`). -/
def splitGo (s : String) (sep : Char) : List String := splitCharAux sep s.data []

/-- `ObjectInfo` from `object.go`; field defaults are the Go zero values,
so `{}` is `var object ObjectInfo`. -/
structure ObjectInfo where
  ID : String := ""
  Name : String := ""
  AcceptRanges : String := ""
  Container : String := ""
  ContentDisposition : String := ""
  ContentEncoding : String := ""
  ContentLength : Int := 0
  ContentType : String := ""
  Date : String := ""
  Etag : String := ""
  LastModified : String := ""
  DeleteAt : Int := 0
  ObjectManifest : String := ""
  ObjectMetadata : SMap := []
  Timestamp : String := ""
  TransactionID : String := ""
deriving Repr, DecidableEq

/-- `CreateObjectInput` from `object.go`; `Body` is `none` when the Go
interface value is nil, and `ObjectMetadata` is the map's entry list. -/
structure CreateObjectInput where
  Name : String := ""
  Body : Option ReadSeeker := none
  Container : String := ""
  ContentDisposition : String := ""
  ContentEncoding : String := ""
  ContentType : String := ""
  CopyFrom : String := ""
  DeleteAt : Int := 0
  ObjectMetadata : SMap := []
  ETag : String := ""
  TransferEncoding : String := ""
deriving Repr, DecidableEq

/-- `GetObjectInput` from `object.go`. -/
structure GetObjectInput where
  ID : String := ""
  Name : String := ""
  Container : String := ""
  Range : String := ""
  Newest : Bool := false
deriving Repr, DecidableEq

/-- `DeleteObjectInput` from `object.go`. -/
structure DeleteObjectInput where
  ID : String := ""
  Name : String := ""
  Container : String := ""
deriving Repr, DecidableEq

/-- The part of an `http.Response` the client reads: the header multimap. -/
structure HttpResponse where
  header : List (String × List String)
deriving Repr, DecidableEq

/-- Go `resp.Header.Get k`: first value stored under the key, `""` when the
key is absent or has no values. -/
def HttpResponse.get (r : HttpResponse) (k : String) : String :=
  match List.find? (fun e => e.1 == k) r.header with
  | some (_, v :: _) => v
  | some (_, []) => ""
  | none => ""

/-- The transport collaborator of the storage client: `createResourceBody`
issues the PUT-equivalent write and yields only an error, `getResourceHeaders`
issues the HEAD-equivalent read and yields the response, `deleteResource`
issues the delete.  The operations receive it as an explicit parameter. -/
structure Transport where
  createResourceBody : String → SMap → Option ReadSeeker → Except GoError Unit
  getResourceHeaders : String → SMap → Except GoError HttpResponse
  deleteResource : String → Except GoError Unit

/-- Modelled from the spec: `getQualifiedName` of the storage client is not
among the sources (only `object.go` and `opc/config.go` are).  The spec's
end-to-end scenario sends the write for container `c1`, name `f.txt` to the
qualified path `c1/f.txt`, so qualification is the identity on the composed
identifier. -/
def getQualifiedName (name : String) : String := name

/-- `getIdentifier` from `object.go`. -/
def getIdentifier (id container name : String) : Except GoError String :=
  if id ≠ "" then .ok (getQualifiedName id)
  else if container = "" ∧ name = "" then
    .error (.errorf ("Either ID or Name and Container must be set during DELETE"))
  else .ok (getQualifiedName (container ++ "/" ++ name))

/-- The scalar-header section of `CreateObject` (lines 144-164): each
optional field is inserted only when non-empty / non-zero; `DeleteAt` is
rendered with `%d`. -/
def scalarHeaders (input : CreateObjectInput) : SMap :=
  let headers : SMap := []
  let headers := if input.ContentDisposition ≠ "" then
    SMap.insert headers h_ContentDisposition input.ContentDisposition else headers
  let headers := if input.ContentEncoding ≠ "" then
    SMap.insert headers h_ContentEncoding input.ContentEncoding else headers
  let headers := if input.ContentType ≠ "" then
    SMap.insert headers h_ContentType input.ContentType else headers
  let headers := if input.ETag ≠ "" then
    SMap.insert headers h_ETag input.ETag else headers
  let headers := if input.TransferEncoding ≠ "" then
    SMap.insert headers h_TransferEncoding input.TransferEncoding else headers
  let headers := if input.CopyFrom ≠ "" then
    SMap.insert headers h_CopyFrom input.CopyFrom else headers
  let headers := if input.DeleteAt ≠ 0 then
    SMap.insert headers h_DeleteAt (toString input.DeleteAt) else headers
  headers

/-- The full request-header map of `CreateObject`: scalar headers followed
by one `X-Object-Meta-{name}` insert per metadata entry (lines 165-172;
iterating an empty map is the identity, so the `len > 0` guard is absorbed
by the fold). -/
def marshalHeaders (input : CreateObjectInput) : SMap :=
  input.ObjectMetadata.foldl
    (fun h kv => SMap.insert h (h_MetadataPrefix ++ kv.1) kv.2)
    (scalarHeaders input)

/-- One step of the metadata extraction loop of `success` (lines 310-314):
a header whose name starts with the metadata prefix contributes one entry,
key = name minus prefix, value = the value list joined with spaces. -/
def metaStep (m : SMap) (e : String × List String) : SMap :=
  if hasPrefixGo e.1 h_MetadataPrefix then
    SMap.insert m (trimPrefixGo e.1 h_MetadataPrefix) (String.intercalate (" ") e.2)
  else m

/-- The metadata extraction of `success` (lines 309-315). -/
def metaOf (resp : HttpResponse) : SMap :=
  resp.header.foldl metaStep []

/-- The numeric-header steps of `success` (lines 295-307): an absent header
yields `none` (field untouched), a present one must parse with `atoi`. -/
def parseNumericHeader (resp : HttpResponse) (key : String) : Except GoError (Option Int) :=
  let v := resp.get key
  if v = "" then .ok none
  else
    match atoi v with
    | .ok n => .ok (some n)
    | .error e => .error e

/-- `success` from `object.go`: copy the scalar headers verbatim, parse the
two numeric headers (Content-Length first, then X-Delete-At, each aborting
the unmarshal on failure), collect the metadata map. -/
def success (resp : HttpResponse) (object : ObjectInfo) : Except GoError ObjectInfo :=
  let object := { object with
    AcceptRanges := resp.get h_AcceptRanges,
    ContentDisposition := resp.get h_ContentDisposition,
    ContentEncoding := resp.get h_ContentEncoding,
    ContentType := resp.get h_ContentType,
    Date := resp.get h_Date,
    Etag := resp.get h_ETag,
    LastModified := resp.get h_LastModified,
    ObjectManifest := resp.get h_ObjectManifest,
    Timestamp := resp.get h_Timestamp,
    TransactionID := resp.get h_TransactionID }
  match parseNumericHeader resp h_ContentLength with
  | .error e => .error e
  | .ok cl =>
    match parseNumericHeader resp h_DeleteAt with
    | .error e => .error e
    | .ok da =>
      .ok { object with
        ContentLength := cl.getD object.ContentLength,
        DeleteAt := da.getD object.DeleteAt,
        ObjectMetadata := metaOf resp }

/-- The request headers `GetObject` always sends (lines 229-231). -/
def getRequestHeaders (input : GetObjectInput) : SMap :=
  SMap.insert (SMap.insert [] h_Range input.Range) h_Newest (fmtBool input.Newest)

/-- `GetObject` from `object.go`: resolve the identifier, issue the read,
then populate ID/Container/Name from the input (decomposing an explicit ID)
before translating the response headers via `success`. -/
def GetObject (T : Transport) (input : GetObjectInput) : Except GoError ObjectInfo :=
  match getIdentifier input.ID input.Container input.Name with
  | .error e => .error e
  | .ok name =>
    match T.getResourceHeaders name (getRequestHeaders input) with
    | .error e => .error e
    | .ok resp =>
      if input.ID ≠ "" then
        let parts := splitGo input.ID '/'
        if parts.length ≠ 2 then
          .error (.errorf (("Unknown ID specified: ") ++ input.ID))
        else
          success resp { ID := input.ID, Container := parts.getD 0 (""), Name := parts.getD 1 ("") }
      else
        success resp { ID := input.Container ++ "/" ++ input.Name, Name := input.Name, Container := input.Container }

/-- `CreateObject` from `object.go`: compose the qualified path, marshal the
headers, enforce the body/copy-source precondition, delegate the write, and
on success return the result of a fresh `GetObject`. -/
def CreateObject (T : Transport) (input : CreateObjectInput) : Except GoError ObjectInfo :=
  let name := getQualifiedName (input.Container ++ "/" ++ input.Name)
  let headers := marshalHeaders input
  if input.Body = none ∧ input.CopyFrom = "" then
    .error (.errorf ("Body cannot be nil"))
  else
    match T.createResourceBody name headers input.Body with
    | .error e => .error e
    | .ok _ => GetObject T { Name := input.Name, Container := input.Container }

/-- `DeleteObject` from `object.go`. -/
def DeleteObject (T : Transport) (input : DeleteObjectInput) : Except GoError Unit :=
  match getIdentifier input.ID input.Container input.Name with
  | .error e => .error e
  | .ok name => T.deleteResource (getQualifiedName name)

/-- A transport that records, inside the error it returns, the path each
operation hands to it; used to observe what the wrappers delegate. -/
def recordTransport : Transport where
  createResourceBody := fun path _ _ => .error (.transport (("create:") ++ path))
  getResourceHeaders := fun path _ => .error (.transport (("get:") ++ path))
  deleteResource := fun path => .error (.transport (("delete:") ++ path))

/-- A transport whose write and delete succeed and whose read returns the
given response; used to instantiate success scenarios. -/
def stubTransport (resp : HttpResponse) : Transport where
  createResourceBody := fun _ _ _ => .ok ()
  getResourceHeaders := fun _ _ => .ok resp
  deleteResource := fun _ => .ok ()

/-- Appending strings concatenates their character lists. -/
theorem strDataAppend (a b : String) : (a ++ b).data = a.data ++ b.data := by
  cases a; cases b; rfl

/-- Strings with equal character lists are equal. -/
theorem strExt (a b : String) (h : a.data = b.data) : a = b := by
  cases a; cases b; exact congrArg String.mk h

/-- Rebuilding a string from its character list is the identity. -/
theorem strEta (s : String) : String.mk s.data = s := by
  cases s; rfl

/-- The empty string is a right identity for append. -/
theorem strAppendEmpty (s : String) : s ++ ("") = s := by
  apply strExt
  simp [strDataAppend]

/-- The empty string is a left identity for append. -/
theorem strEmptyAppend (s : String) : ("") ++ s = s := by
  apply strExt
  simp [strDataAppend]

/-- A list is a prefix, in the boolean sense, of itself followed by anything. -/
theorem isPrefixOf_self_append (p t : List Char) : p.isPrefixOf (p ++ t) = true := by
  induction p with
  | nil => simp [List.isPrefixOf]
  | cons x xs ih => simp [List.isPrefixOf, ih]

/-- A marshaled metadata header name passes the prefix test. -/
theorem hasPrefixGo_self_append (p k : String) : hasPrefixGo (p ++ k) p = true := by
  simp [hasPrefixGo, strDataAppend, isPrefixOf_self_append]

/-- Trimming the prefix off a marshaled metadata header name recovers the key. -/
theorem trimPrefixGo_self_append (p k : String) : trimPrefixGo (p ++ k) p = k := by
  rw [trimPrefixGo, if_pos (hasPrefixGo_self_append p k), strDataAppend, List.drop_left]

/-- A string failing the prefix test cannot be the prefix followed by anything. -/
theorem ne_of_hasPrefixGo_false (p k s : String) (h : hasPrefixGo s p = false) :
    p ++ k ≠ s := by
  intro he
  rw [← he, hasPrefixGo_self_append] at h
  simp at h

/-- Appending on the left is injective. -/
theorem strAppendLeftCancel (p a b : String) (h : p ++ a = p ++ b) : a = b := by
  apply strExt
  have hd := congrArg String.data h
  rw [strDataAppend, strDataAppend] at hd
  exact List.append_cancel_left hd

/-- Lookup after an insert with the same key yields the inserted value. -/
theorem SMap.get?_insert_self (m : SMap) (k v : String) :
    SMap.get? (SMap.insert m k v) k = some v := by
  simp [SMap.get?, SMap.insert, List.find?]

/-- Lookup after an insert with a different key is unchanged. -/
theorem SMap.get?_insert_ne (m : SMap) (k v k' : String) (h : k' ≠ k) :
    SMap.get? (SMap.insert m k v) k' = SMap.get? m k' := by
  simp only [SMap.get?, SMap.insert, List.find?]
  have : (k == k') = false := by
    simp [beq_iff_eq]
    exact fun he => h he.symm
  simp [this]

/-- Lookup passes through a conditional insert with a different key. -/
theorem SMap.get?_ite_insert_ne (c : Prop) [Decidable c] (m : SMap) (k v k' : String)
    (h : k' ≠ k) :
    SMap.get? (if c then SMap.insert m k v else m) k' = SMap.get? m k' := by
  split
  · exact SMap.get?_insert_ne m k v k' h
  · rfl

/-- Lookup at the key of a conditional insert. -/
theorem SMap.get?_ite_insert_self (c : Prop) [Decidable c] (m : SMap) (k v : String) :
    SMap.get? (if c then SMap.insert m k v else m) k =
      if c then some v else SMap.get? m k := by
  split
  · exact SMap.get?_insert_self m k v
  · rfl

/-- Lookup skips a leading block none of whose keys match. -/
theorem SMap.get?_append_of_none (A B : SMap) (k : String)
    (h : ∀ e ∈ A, e.1 ≠ k) : SMap.get? (A ++ B) k = SMap.get? B k := by
  induction A with
  | nil => rfl
  | cons e A ih =>
    have h1 : e.1 ≠ k := h e (List.mem_cons_self e A)
    have hb : (e.1 == k) = false := by simpa using h1
    simp only [List.cons_append, SMap.get?, List.find?, hb]
    exact ih fun x hx => h x (List.mem_cons_of_mem e hx)

/-- A lookup already resolved in the leading block survives an append. -/
theorem SMap.get?_append_of_some (A B : SMap) (k v : String)
    (h : SMap.get? A k = some v) : SMap.get? (A ++ B) k = some v := by
  induction A with
  | nil => simp [SMap.get?] at h
  | cons e A ih =>
    simp only [SMap.get?, List.find?, List.cons_append] at h ⊢
    cases hb : (e.1 == k) with
    | true => simpa [hb] using h
    | false =>
      rw [hb] at h
      exact ih h

/-- Membership in a conditional insert comes from the binding or the base. -/
theorem SMap.mem_ite_insert (c : Prop) [Decidable c] (m : SMap) (k v : String)
    (e : String × String) (h : e ∈ (if c then SMap.insert m k v else m)) :
    e.1 = k ∨ e ∈ m := by
  by_cases hc : c
  · rw [if_pos hc] at h
    rcases List.mem_cons.mp h with rfl | hm
    · exact Or.inl rfl
    · exact Or.inr hm
  · rw [if_neg hc] at h
    exact Or.inr h

/-- Folding prepends of mapped elements reverses the mapped list onto the base. -/
theorem foldl_prepend {α β : Type} (f : α → β) (l : List α) (m : List β) :
    l.foldl (fun acc x => f x :: acc) m = (l.map f).reverse ++ m := by
  induction l generalizing m with
  | nil => rfl
  | cons a l ih =>
    simp only [List.foldl_cons, List.map_cons, List.reverse_cons, ih]
    simp

/-- The request-header map of a create call splits into the reversed
metadata block followed by the scalar block. -/
theorem marshalHeaders_eq (input : CreateObjectInput) :
    marshalHeaders input =
      (input.ObjectMetadata.map (fun kv => (h_MetadataPrefix ++ kv.1, kv.2))).reverse
        ++ scalarHeaders input := by
  unfold marshalHeaders
  exact foldl_prepend (fun kv => (h_MetadataPrefix ++ kv.1, kv.2)) input.ObjectMetadata
    (scalarHeaders input)

/-- Every scalar-block entry carries one of the seven fixed header names. -/
theorem scalarHeaders_keys (input : CreateObjectInput) (e : String × String)
    (h : e ∈ scalarHeaders input) :
    e.1 = h_ContentDisposition ∨ e.1 = h_ContentEncoding ∨ e.1 = h_ContentType ∨
    e.1 = h_ETag ∨ e.1 = h_TransferEncoding ∨ e.1 = h_CopyFrom ∨ e.1 = h_DeleteAt := by
  simp only [scalarHeaders] at h
  rcases SMap.mem_ite_insert _ _ _ _ _ h with hk | h
  · tauto
  rcases SMap.mem_ite_insert _ _ _ _ _ h with hk | h
  · tauto
  rcases SMap.mem_ite_insert _ _ _ _ _ h with hk | h
  · tauto
  rcases SMap.mem_ite_insert _ _ _ _ _ h with hk | h
  · tauto
  rcases SMap.mem_ite_insert _ _ _ _ _ h with hk | h
  · tauto
  rcases SMap.mem_ite_insert _ _ _ _ _ h with hk | h
  · tauto
  rcases SMap.mem_ite_insert _ _ _ _ _ h with hk | h
  · tauto
  · simp at h

/-- Splitting always yields one more field than there are separators. -/
theorem splitCharAux_length (sep : Char) (cs acc : List Char) :
    (splitCharAux sep cs acc).length = cs.count sep + 1 := by
  induction cs generalizing acc with
  | nil => simp [splitCharAux]
  | cons c rest ih =>
    by_cases hc : c = sep
    · subst hc
      simp [splitCharAux, ih, List.count_cons]
    · simp [splitCharAux, hc, ih, List.count_cons]

/-- Splitting a separator-free list yields the single accumulated field. -/
theorem splitCharAux_no_sep (sep : Char) (cs acc : List Char) (h : sep ∉ cs) :
    splitCharAux sep cs acc = [String.mk (acc.reverse ++ cs)] := by
  induction cs generalizing acc with
  | nil => simp [splitCharAux]
  | cons c rest ih =>
    have hc : ¬ c = sep := fun he => h (he ▸ List.mem_cons_self c rest)
    rw [splitCharAux, if_neg hc, ih (c :: acc) (fun hm => h (List.mem_cons_of_mem c hm))]
    simp

/-- Splitting at the first separator emits the accumulated field and recurses. -/
theorem splitCharAux_sep_mid (sep : Char) (xs ys acc : List Char) (h : sep ∉ xs) :
    splitCharAux sep (xs ++ sep :: ys) acc =
      String.mk (acc.reverse ++ xs) :: splitCharAux sep ys [] := by
  induction xs generalizing acc with
  | nil => simp [splitCharAux]
  | cons x xs ih =>
    have hx : ¬ x = sep := fun he => h (he ▸ List.mem_cons_self x xs)
    rw [List.cons_append, splitCharAux, if_neg hx,
      ih (x :: acc) (fun hm => h (List.mem_cons_of_mem x hm))]
    simp

/-- The character list of the composed compound identifier. -/
theorem compose_data (c n : String) :
    (c ++ ("/") ++ n).data = c.data ++ '/' :: n.data := by
  rw [strDataAppend, strDataAppend]
  simp

/-- A numeric-header parse is determined by the header's textual value. -/
theorem parseNumericHeader_of_get (resp : HttpResponse) (key v : String)
    (h : resp.get key = v) :
    parseNumericHeader resp key =
      if v = "" then .ok none
      else
        match atoi v with
        | .ok n => .ok (some n)
        | .error e => .error e := by
  unfold parseNumericHeader
  rw [h]

/-- Every error of the decimal parser is a FormatError carrying its input. -/
theorem atoi_error_shape (v : String) (e : GoError) (h : atoi v = .error e) :
    e = .numError ("Atoi") v := by
  unfold atoi at h
  split at h
  · simp at h
    exact h.symm
  · split at h
    · simp at h
    · simp at h
      exact h.symm

/-- A successful unmarshal keeps the caller-set identification fields and
stores exactly the extracted metadata. -/
theorem success_ok_fields (resp : HttpResponse) (obj o : ObjectInfo)
    (h : success resp obj = .ok o) :
    o.ID = obj.ID ∧ o.Name = obj.Name ∧ o.Container = obj.Container ∧
    o.ObjectMetadata = metaOf resp := by
  unfold success at h
  split at h
  · simp at h
  · split at h
    · simp at h
    · simp only [Except.ok.injEq] at h
      subst h
      exact ⟨rfl, rfl, rfl, rfl⟩

/-- On a read without an explicit ID, a successful get derives the
descriptor's identification fields from the input pair. -/
theorem getObject_ok_fields (T : Transport) (input : GetObjectInput) (o : ObjectInfo)
    (hID : input.ID = "") (h : GetObject T input = .ok o) :
    o.ID = input.Container ++ ("/") ++ input.Name ∧ o.Name = input.Name ∧
    o.Container = input.Container := by
  unfold GetObject at h
  split at h
  · simp at h
  · split at h
    · simp at h
    · rw [if_neg (fun hne => hne hID)] at h
      have hf := success_ok_fields _ _ o h
      exact ⟨hf.1, hf.2.1, hf.2.2.1⟩

/-- Response view of a request-header map: each value becomes a one-element
value list, as a written header reads back as a single value. -/
def respOfHeaders (m : SMap) : HttpResponse := { header := m.map (fun kv => (kv.1, [kv.2])) }

/-- Lookup of a header name that is no metadata name reads through the
metadata block of the create request headers. -/
theorem get?_marshalHeaders_scalar (input : CreateObjectInput) (k0 : String)
    (hk : hasPrefixGo k0 h_MetadataPrefix = false) :
    SMap.get? (marshalHeaders input) k0 = SMap.get? (scalarHeaders input) k0 := by
  rw [marshalHeaders_eq]
  apply SMap.get?_append_of_none
  intro e he
  rw [List.mem_reverse] at he
  rcases List.mem_map.mp he with ⟨kv, _, rfl⟩
  exact ne_of_hasPrefixGo_false _ _ _ hk

/-- Under distinct metadata keys, the marshaled metadata block resolves the
prefixed name of an entry to that entry's value. -/
theorem get?_meta_block (meta : SMap) (hnd : (meta.map Prod.fst).Nodup) (k v : String)
    (hmem : (k, v) ∈ meta) :
    SMap.get? ((meta.map (fun kv => (h_MetadataPrefix ++ kv.1, kv.2))).reverse)
      (h_MetadataPrefix ++ k) = some v := by
  induction meta with
  | nil => simp at hmem
  | cons kv0 rest ih =>
    rw [List.map_cons] at hnd
    rw [List.nodup_cons] at hnd
    rcases List.mem_cons.mp hmem with rfl | hrest
    · rw [List.map_cons, List.reverse_cons]
      rw [SMap.get?_append_of_none]
      · simp [SMap.get?, List.find?]
      · intro e he
        rw [List.mem_reverse] at he
        rcases List.mem_map.mp he with ⟨kv, hkv, rfl⟩
        intro hcon
        have : kv.1 = k := strAppendLeftCancel _ _ _ hcon
        exact hnd.1 (this ▸ List.mem_map.mpr ⟨kv, hkv, rfl⟩)
    · rw [List.map_cons, List.reverse_cons]
      exact SMap.get?_append_of_some _ _ _ _ (ih hnd.2 hrest)

/-- Joining a one-element value list yields the value verbatim. -/
theorem intercalate_single (v : String) : String.intercalate (" ") [v] = v := by
  simp [String.intercalate, String.intercalate.go]

/-- Headers that fail the metadata prefix test do not contribute entries. -/
theorem metaStep_skip (L : List (String × List String)) (m : SMap)
    (h : ∀ e ∈ L, hasPrefixGo e.1 h_MetadataPrefix = false) :
    L.foldl metaStep m = m := by
  induction L generalizing m with
  | nil => rfl
  | cons e L ih =>
    have he := h e (List.mem_cons_self e L)
    rw [List.foldl_cons, metaStep, if_neg (by simp [he])]
    exact ih m (fun x hx => h x (List.mem_cons_of_mem e hx))

/-- Extracting the metadata back out of marshaled metadata headers restores
the original entries in order, prepended to the accumulator. -/
theorem metaStep_roundtrip (meta : SMap) (m : SMap) :
    ((meta.map (fun kv => (h_MetadataPrefix ++ kv.1, [kv.2]))).reverse).foldl metaStep m =
      meta ++ m := by
  induction meta generalizing m with
  | nil => rfl
  | cons kv rest ih =>
    rw [List.map_cons, List.reverse_cons, List.foldl_append, ih]
    simp [metaStep, hasPrefixGo_self_append, trimPrefixGo_self_append, intercalate_single,
      SMap.insert]

/-- Unmarshaling the headers marshaled from a create input extracts exactly
the input's metadata entries. -/
theorem metaOf_marshal (input : CreateObjectInput) :
    metaOf (respOfHeaders (marshalHeaders input)) = input.ObjectMetadata := by
  have hpref : ∀ e ∈ (scalarHeaders input).map (fun kv => (kv.1, [kv.2])),
      hasPrefixGo e.1 h_MetadataPrefix = false := by
    intro e he
    rcases List.mem_map.mp he with ⟨s, hs, rfl⟩
    dsimp only
    rcases scalarHeaders_keys input s hs with hk|hk|hk|hk|hk|hk|hk <;> rw [hk] <;> decide
  have h2 : ((input.ObjectMetadata.map
        (fun kv => (h_MetadataPrefix ++ kv.1, kv.2))).reverse).map
          (fun kv => (kv.1, [kv.2])) =
      (input.ObjectMetadata.map (fun kv => (h_MetadataPrefix ++ kv.1, [kv.2]))).reverse := by
    rw [List.map_reverse, List.map_map]
    rfl
  unfold metaOf respOfHeaders
  rw [marshalHeaders_eq, List.map_append, List.foldl_append, h2, metaStep_roundtrip,
    metaStep_skip _ _ hpref]
  simp

/-- C2 (amended): identifier resolution returns the explicit id verbatim when
it is non-empty; with no id it fails with the ValidationError message
"Either ID or Name and Container must be set during DELETE" exactly when
container and name are both empty, and otherwise composes container/name. -/
theorem identifier_resolution_cases (id container name : String) :
    (id ≠ ("") → getIdentifier id container name = .ok id) ∧
    (id = ("") → container = ("") → name = ("") →
      getIdentifier id container name =
        .error (.errorf ("Either ID or Name and Container must be set during DELETE")) ∧
      (GoError.errorf ("Either ID or Name and Container must be set during DELETE")).isValidationError
        = true) ∧
    (id = ("") → ¬(container = ("") ∧ name = ("")) →
      getIdentifier id container name = .ok (container ++ ("/") ++ name)) := by
  refine ⟨?_, ?_, ?_⟩
  · intro h
    rw [getIdentifier, if_pos h]
    rfl
  · intro h1 h2 h3
    rw [getIdentifier, if_neg (fun hn => hn h1), if_pos ⟨h2, h3⟩]
    exact ⟨rfl, rfl⟩
  · intro h1 h2
    rw [getIdentifier, if_neg (fun hn => hn h1), if_neg h2]
    rfl

/-- C2 witness: the three branches evaluated at concrete inputs. -/
theorem identifier_resolution_cases_witness :
    getIdentifier ("x/y") ("c") ("o") = .ok ("x/y") ∧
    getIdentifier ("") ("") ("") =
      .error (.errorf ("Either ID or Name and Container must be set during DELETE")) ∧
    getIdentifier ("") ("c1") ("o1") = .ok ("c1/o1") := by
  refine ⟨(identifier_resolution_cases ("x/y") ("c") ("o")).1 (by decide),
    ((identifier_resolution_cases ("") ("") ("")).2.1 rfl rfl rfl).1, ?_⟩
  have h := (identifier_resolution_cases ("") ("c1") ("o1")).2.2 rfl (by decide)
  exact h.trans (by decide)

/-- C2 counterexample: on the all-empty input the resolver's message is not
"Either ID or Name and Container must be set" as claimed (the code appends
" during DELETE"), though the failure is indeed a ValidationError. -/
theorem identifier_resolution_message_counterexample :
    getIdentifier ("") ("") ("") ≠
      .error (.errorf ("Either ID or Name and Container must be set")) ∧
    (∃ e, getIdentifier ("") ("") ("") = .error e ∧ e.isValidationError = true) := by
  constructor
  · decide
  · exact ⟨.errorf ("Either ID or Name and Container must be set during DELETE"), by decide, rfl⟩

/-- C6: composing the compound identifier from a separator-free non-empty
container and name, and then decomposing it at the separator, yields back
exactly the original pair. -/
theorem compose_then_decompose (c n : String) (hc : c ≠ ("")) (hn : n ≠ (""))
    (hcs : '/' ∉ c.data) (hns : '/' ∉ n.data) :
    getIdentifier ("") c n = .ok (c ++ ("/") ++ n) ∧
    splitGo (c ++ ("/") ++ n) '/' = [c, n] := by
  constructor
  · rw [getIdentifier, if_neg (by simp), if_neg (fun hb => hc hb.1)]
    rfl
  · unfold splitGo
    rw [compose_data, splitCharAux_sep_mid _ _ _ _ hcs, splitCharAux_no_sep _ _ _ hns]
    simp

/-- C6 witness: the round trip at container "c1", name "f.txt". -/
theorem compose_then_decompose_witness :
    getIdentifier ("") ("c1") ("f.txt") = .ok (("c1") ++ ("/") ++ ("f.txt")) ∧
    splitGo (("c1") ++ ("/") ++ ("f.txt")) '/' = [("c1"), ("f.txt")] :=
  compose_then_decompose ("c1") ("f.txt") (by decide) (by decide) (by decide) (by decide)

/-- C8: when the body is nil and the copy source is empty, CreateObject
fails with the ValidationError "Body cannot be nil" for every transport
whatsoever — the result does not depend on the transport, so no transport
call is made before the failure. -/
theorem create_nil_body_validation (T : Transport) (input : CreateObjectInput)
    (hb : input.Body = none) (hc : input.CopyFrom = ("")) :
    CreateObject T input = .error (.errorf ("Body cannot be nil")) ∧
    (GoError.errorf ("Body cannot be nil")).isValidationError = true := by
  constructor
  · unfold CreateObject
    rw [if_pos ⟨hb, hc⟩]
  · rfl

/-- C8 witness: the nil-body create evaluated against the recording
transport, which would surface any transport call as a transport error. -/
theorem create_nil_body_validation_witness :
    CreateObject recordTransport { Name := ("f.txt"), Container := ("c1") } =
      .error (.errorf ("Body cannot be nil")) :=
  (create_nil_body_validation recordTransport { Name := ("f.txt"), Container := ("c1") }
    rfl rfl).1

/-- C5: whenever identifier resolution succeeds, Delete hands the transport
exactly the resolved qualified identifier — the identical string Get hands
it for the same input — and that string is the raw id or composition with
qualification applied once (re-qualifying it is the identity). -/
theorem delete_get_same_identifier (id c n qn r : String) (w : Bool)
    (h : getIdentifier id c n = .ok qn) :
    DeleteObject recordTransport { ID := id, Name := n, Container := c } =
      .error (.transport (("delete:") ++ qn)) ∧
    GetObject recordTransport { ID := id, Name := n, Container := c, Range := r, Newest := w } =
      .error (.transport (("get:") ++ qn)) ∧
    qn = getQualifiedName (if id ≠ ("") then id else c ++ ("/") ++ n) ∧
    getQualifiedName qn = qn := by
  refine ⟨?_, ?_, ?_, rfl⟩
  · unfold DeleteObject
    rw [h]
    rfl
  · unfold GetObject
    rw [h]
    rfl
  · rw [getIdentifier] at h
    by_cases hid : id ≠ ("")
    · rw [if_pos hid] at h
      rw [if_pos hid]
      simpa using h.symm
    · rw [if_neg hid] at h
      rw [if_neg hid]
      split at h
      · simp at h
      · simpa using h.symm

/-- C5 witness: the composed path for container "c1", name "o1" reaches the
transport identically from Delete and from Get. -/
theorem delete_get_same_identifier_witness :
    DeleteObject recordTransport { ID := (""), Name := ("o1"), Container := ("c1") } =
      .error (.transport ("delete:c1/o1")) ∧
    GetObject recordTransport
        { ID := (""), Name := ("o1"), Container := ("c1"), Range := (""), Newest := false } =
      .error (.transport ("get:c1/o1")) := by
  have h := delete_get_same_identifier ("") ("c1") ("o1") ("c1/o1") ("") false (by decide)
  exact ⟨h.1, h.2.1⟩

/-- C10: with no explicit identifier and exactly one of container/name
empty, resolution does not fail but returns the degenerate composition, and
Get and Delete go on to hand that malformed path to the transport. -/
theorem degenerate_identifier_requests (c n r : String) (w : Bool)
    (hc : c ≠ ("")) (hn : n ≠ ("")) :
    (getIdentifier ("") c ("") = .ok (c ++ ("/")) ∧
     DeleteObject recordTransport { ID := (""), Name := (""), Container := c } =
       .error (.transport (("delete:") ++ (c ++ ("/")))) ∧
     GetObject recordTransport { ID := (""), Name := (""), Container := c, Range := r, Newest := w } =
       .error (.transport (("get:") ++ (c ++ ("/"))))) ∧
    (getIdentifier ("") ("") n = .ok (("/") ++ n) ∧
     DeleteObject recordTransport { ID := (""), Name := n, Container := ("") } =
       .error (.transport (("delete:") ++ (("/") ++ n))) ∧
     GetObject recordTransport { ID := (""), Name := n, Container := (""), Range := r, Newest := w } =
       .error (.transport (("get:") ++ (("/") ++ n)))) := by
  have hgi1 : getIdentifier ("") c ("") = .ok (c ++ ("/")) := by
    rw [getIdentifier, if_neg (by simp), if_neg (fun hb => hc hb.1)]
    rw [getQualifiedName, strAppendEmpty]
  have hgi2 : getIdentifier ("") ("") n = .ok (("/") ++ n) := by
    rw [getIdentifier, if_neg (by simp), if_neg (fun hb => hn hb.2)]
    rw [getQualifiedName, strEmptyAppend]
  refine ⟨⟨hgi1, ?_, ?_⟩, ⟨hgi2, ?_, ?_⟩⟩
  · unfold DeleteObject
    rw [hgi1]
    rfl
  · unfold GetObject
    rw [hgi1]
    rfl
  · unfold DeleteObject
    rw [hgi2]
    rfl
  · unfold GetObject
    rw [hgi2]
    rfl

/-- C9: on a get with a non-empty explicit ID whose transport request
succeeds, decomposition fails with the ValidationError "Unknown ID
specified" exactly when splitting the ID at the separator does not yield
two parts — equivalently, when the ID does not contain exactly one
separator — and otherwise the descriptor's Container and Name come from
the two parts and its ID from the input. -/
theorem get_explicit_id_decomposition (T : Transport) (input : GetObjectInput)
    (resp : HttpResponse) (hID : input.ID ≠ (""))
    (ht : T.getResourceHeaders (getQualifiedName input.ID) (getRequestHeaders input) = .ok resp) :
    ((splitGo input.ID '/').length ≠ 2 →
      GetObject T input = .error (.errorf (("Unknown ID specified: ") ++ input.ID)) ∧
      (GoError.errorf (("Unknown ID specified: ") ++ input.ID)).isValidationError = true) ∧
    ((splitGo input.ID '/').length = 2 →
      ∀ o, GetObject T input = .ok o →
        o.ID = input.ID ∧ o.Container = (splitGo input.ID '/').getD 0 ("") ∧
        o.Name = (splitGo input.ID '/').getD 1 ("")) ∧
    ((splitGo input.ID '/').length = 2 ↔ input.ID.data.count '/' = 1) := by
  have hgi : getIdentifier input.ID input.Container input.Name =
      .ok (getQualifiedName input.ID) := by
    rw [getIdentifier, if_pos hID]
  have hnorm : GetObject T input =
      (if (splitGo input.ID '/').length ≠ 2 then
        Except.error (.errorf (("Unknown ID specified: ") ++ input.ID))
      else
        success resp
          { ID := input.ID, Container := (splitGo input.ID '/').getD 0 (""),
            Name := (splitGo input.ID '/').getD 1 ("") }) := by
    unfold GetObject
    rw [hgi]
    dsimp only
    rw [ht]
    dsimp only
    rw [if_pos hID]
  refine ⟨?_, ?_, ?_⟩
  · intro hlen
    rw [hnorm, if_pos hlen]
    exact ⟨rfl, rfl⟩
  · intro hlen o ho
    rw [hnorm, if_neg (fun hne => hne hlen)] at ho
    have hf := success_ok_fields _ _ o ho
    exact ⟨hf.1, hf.2.2.1, hf.2.1⟩
  · rw [show (splitGo input.ID '/').length = input.ID.data.count '/' + 1 from
      splitCharAux_length '/' input.ID.data []]
    omega

/-- C9 witness: a three-part and a separator-free ID are rejected, a
two-part ID populates the fields. -/
theorem get_explicit_id_decomposition_witness :
    GetObject (stubTransport { header := [] }) { ID := ("a/b/c") } =
      .error (.errorf ("Unknown ID specified: a/b/c")) ∧
    GetObject (stubTransport { header := [] }) { ID := ("ab") } =
      .error (.errorf ("Unknown ID specified: ab")) ∧
    (∀ o, GetObject (stubTransport { header := [] }) { ID := ("a/b") } = .ok o →
      o.ID = ("a/b") ∧ o.Container = (splitGo ("a/b") '/').getD 0 ("") ∧
      o.Name = (splitGo ("a/b") '/').getD 1 ("")) := by
  refine ⟨?_, ?_, ?_⟩
  · have h := (get_explicit_id_decomposition (stubTransport { header := [] })
      { ID := ("a/b/c") } { header := [] } (by decide) rfl).1 (by decide)
    exact h.1.trans (by decide)
  · have h := (get_explicit_id_decomposition (stubTransport { header := [] })
      { ID := ("ab") } { header := [] } (by decide) rfl).1 (by decide)
    exact h.1.trans (by decide)
  · exact (get_explicit_id_decomposition (stubTransport { header := [] })
      { ID := ("a/b") } { header := [] } (by decide) rfl).2.1 (by decide)

/-- C3: a Content-Length value of "42" unmarshals to the integer 42; a
non-empty unparsable Content-Length or X-Delete-At value makes the whole
unmarshal fail with a FormatError so no descriptor is returned; absent
numeric headers leave the fields at zero without error. -/
theorem unmarshal_numeric_headers (resp : HttpResponse) (obj : ObjectInfo) :
    (resp.get h_ContentLength = ("42") →
      ∀ o, success resp obj = .ok o → o.ContentLength = 42) ∧
    (∀ e, resp.get h_ContentLength ≠ ("") → atoi (resp.get h_ContentLength) = .error e →
      success resp obj = .error e ∧ e.isFormatError = true) ∧
    (∀ e, resp.get h_DeleteAt ≠ ("") → atoi (resp.get h_DeleteAt) = .error e →
      (resp.get h_ContentLength = ("") ∨ (∃ k, atoi (resp.get h_ContentLength) = .ok k)) →
      success resp obj = .error e ∧ e.isFormatError = true) ∧
    (resp.get h_ContentLength = ("") → resp.get h_DeleteAt = ("") → obj.ContentLength = 0 →
      ∃ o, success resp obj = .ok o ∧ o.ContentLength = 0 ∧ o.DeleteAt = obj.DeleteAt) := by
  refine ⟨?_, ?_, ?_, ?_⟩
  · intro hv o ho
    have hp : parseNumericHeader resp h_ContentLength = .ok (some 42) := by
      rw [parseNumericHeader_of_get resp h_ContentLength ("42") hv]
      decide
    unfold success at ho
    rw [hp] at ho
    dsimp only at ho
    split at ho
    · simp at ho
    · simp only [Except.ok.injEq] at ho
      subst ho
      rfl
  · intro e hne herr
    have hp : parseNumericHeader resp h_ContentLength = .error e := by
      unfold parseNumericHeader
      rw [if_neg hne, herr]
    have hshape := atoi_error_shape _ _ herr
    constructor
    · unfold success
      rw [hp]
    · subst hshape
      rfl
  · intro e hne herr hcl
    have hshape := atoi_error_shape _ _ herr
    have hpd : parseNumericHeader resp h_DeleteAt = .error e := by
      unfold parseNumericHeader
      rw [if_neg hne, herr]
    have hpc : ∃ cl, parseNumericHeader resp h_ContentLength = .ok cl := by
      unfold parseNumericHeader
      dsimp only
      rcases hcl with hemp | ⟨k, hk⟩
      · exact ⟨none, by rw [if_pos hemp]⟩
      · have hne2 : ¬ (resp.get h_ContentLength = ("")) := by
          intro hemp
          rw [hemp] at hk
          have hav : atoi ("") = Except.error (.numError ("Atoi") ("")) := by decide
          rw [hav] at hk
          simp at hk
        refine ⟨some k, ?_⟩
        rw [if_neg hne2, hk]
    rcases hpc with ⟨cl, hpc⟩
    constructor
    · unfold success
      rw [hpc]
      dsimp only
      rw [hpd]
    · subst hshape
      rfl
  · intro hcl hda h0
    have hpc : parseNumericHeader resp h_ContentLength = .ok none := by
      unfold parseNumericHeader
      rw [if_pos hcl]
    have hpd : parseNumericHeader resp h_DeleteAt = .ok none := by
      unfold parseNumericHeader
      rw [if_pos hda]
    have hsucc : success resp obj = .ok { obj with
        AcceptRanges := resp.get h_AcceptRanges,
        ContentDisposition := resp.get h_ContentDisposition,
        ContentEncoding := resp.get h_ContentEncoding,
        ContentType := resp.get h_ContentType,
        Date := resp.get h_Date,
        Etag := resp.get h_ETag,
        LastModified := resp.get h_LastModified,
        ObjectManifest := resp.get h_ObjectManifest,
        Timestamp := resp.get h_Timestamp,
        TransactionID := resp.get h_TransactionID,
        ObjectMetadata := metaOf resp } := by
      unfold success
      rw [hpc]
      dsimp only
      rw [hpd]
      rfl
    exact ⟨_, hsucc, by simpa using h0, rfl⟩

/-- C3 witness: "42" parses to 42, "abc" aborts the unmarshal, and the
empty header set succeeds leaving the numeric fields zero. -/
theorem unmarshal_numeric_headers_witness :
    (success { header := [(("Content-Length"), [("42")])] } {} =
      .ok { ContentLength := 42, ObjectMetadata := [] } ∧
     (∀ o, success { header := [(("Content-Length"), [("42")])] } {} = .ok o →
        o.ContentLength = 42)) ∧
    success { header := [(("Content-Length"), [("abc")])] } {} =
      .error (.numError ("Atoi") ("abc")) ∧
    (∃ o, success { header := ([] : List (String × List String)) } {} = .ok o ∧
      o.ContentLength = 0 ∧ o.DeleteAt = (({} : ObjectInfo)).DeleteAt) := by
  refine ⟨⟨by decide, ?_⟩, ?_, ?_⟩
  · exact (unmarshal_numeric_headers { header := [(("Content-Length"), [("42")])] } {}).1
      (by decide)
  · exact ((unmarshal_numeric_headers { header := [(("Content-Length"), [("abc")])] } {}).2.1
      (.numError ("Atoi") ("abc")) (by decide) (by decide)).1
  · exact (unmarshal_numeric_headers { header := [] } {}).2.2.2 rfl rfl rfl

/-- C1: under the body/copy-source precondition, CreateObject delegates the
write under the qualified path composed from container and name with the
marshaled headers (for every transport), and when that write succeeds the
returned descriptor is exactly the result of a subsequent GetObject with
the same Container and Name — nothing comes from the write response, whose
only payload is an error — with identifier container/name on success. -/
theorem create_returns_authoritative_get (T : Transport) (input : CreateObjectInput)
    (hpre : input.Body ≠ none ∨ input.CopyFrom ≠ ("")) :
    (∀ T' : Transport, CreateObject T' input =
      match T'.createResourceBody (getQualifiedName (input.Container ++ ("/") ++ input.Name))
          (marshalHeaders input) input.Body with
      | .error e => .error e
      | .ok _ => GetObject T' { Name := input.Name, Container := input.Container }) ∧
    (T.createResourceBody (getQualifiedName (input.Container ++ ("/") ++ input.Name))
        (marshalHeaders input) input.Body = .ok () →
      CreateObject T input = GetObject T { Name := input.Name, Container := input.Container } ∧
      (∀ o, CreateObject T input = .ok o →
        o.ID = input.Container ++ ("/") ++ input.Name ∧ o.Name = input.Name ∧
        o.Container = input.Container)) := by
  have hdel : ∀ T' : Transport, CreateObject T' input =
      match T'.createResourceBody (getQualifiedName (input.Container ++ ("/") ++ input.Name))
          (marshalHeaders input) input.Body with
      | .error e => .error e
      | .ok _ => GetObject T' { Name := input.Name, Container := input.Container } := by
    intro T'
    unfold CreateObject
    rw [if_neg (fun hb => hpre.elim (fun h => h hb.1) (fun h => h hb.2))]
  refine ⟨hdel, ?_⟩
  intro hw
  have hC : CreateObject T input =
      GetObject T { Name := input.Name, Container := input.Container } := by
    rw [hdel T, hw]
  refine ⟨hC, ?_⟩
  intro o ho
  rw [hC] at ho
  exact getObject_ok_fields T { Name := input.Name, Container := input.Container } o rfl ho

/-- C1 witness: the end-to-end scenario for container "c1", name "f.txt"
with a Content-Type header, against a stub transport. -/
theorem create_returns_authoritative_get_witness :
    CreateObject (stubTransport { header := [] })
        { Name := ("f.txt"), Container := ("c1"), Body := some { bytes := [] },
          ContentType := ("text/plain") } =
      GetObject (stubTransport { header := [] }) { Name := ("f.txt"), Container := ("c1") } ∧
    (∀ o, CreateObject (stubTransport { header := [] })
        { Name := ("f.txt"), Container := ("c1"), Body := some { bytes := [] },
          ContentType := ("text/plain") } = .ok o →
      o.ID = ("c1") ++ ("/") ++ ("f.txt") ∧ o.Name = ("f.txt") ∧ o.Container = ("c1")) := by
  have h := (create_returns_authoritative_get (stubTransport { header := [] })
      { Name := ("f.txt"), Container := ("c1"), Body := some { bytes := [] },
        ContentType := ("text/plain") }
      (Or.inl (by decide))).2 rfl
  exact h

/-- C4: each optional scalar create field appears as a request header if and
only if it is non-empty (DeleteAt: non-zero, rendered in decimal), with its
exact value, and each metadata entry is found under the prefixed name with
its value verbatim. -/
theorem marshal_omit_if_default (input : CreateObjectInput) :
    SMap.get? (marshalHeaders input) h_ContentDisposition =
      (if input.ContentDisposition = ("") then none else some input.ContentDisposition) ∧
    SMap.get? (marshalHeaders input) h_ContentEncoding =
      (if input.ContentEncoding = ("") then none else some input.ContentEncoding) ∧
    SMap.get? (marshalHeaders input) h_ContentType =
      (if input.ContentType = ("") then none else some input.ContentType) ∧
    SMap.get? (marshalHeaders input) h_ETag =
      (if input.ETag = ("") then none else some input.ETag) ∧
    SMap.get? (marshalHeaders input) h_TransferEncoding =
      (if input.TransferEncoding = ("") then none else some input.TransferEncoding) ∧
    SMap.get? (marshalHeaders input) h_CopyFrom =
      (if input.CopyFrom = ("") then none else some input.CopyFrom) ∧
    SMap.get? (marshalHeaders input) h_DeleteAt =
      (if input.DeleteAt = 0 then none else some (toString input.DeleteAt)) ∧
    ((input.ObjectMetadata.map Prod.fst).Nodup →
      ∀ k v, (k, v) ∈ input.ObjectMetadata →
        SMap.get? (marshalHeaders input) (h_MetadataPrefix ++ k) = some v) := by
  refine ⟨?_, ?_, ?_, ?_, ?_, ?_, ?_, ?_⟩
  · rw [get?_marshalHeaders_scalar input h_ContentDisposition (by decide)]
    simp only [scalarHeaders]
    rw [SMap.get?_ite_insert_ne _ _ _ _ _ (by decide), SMap.get?_ite_insert_ne _ _ _ _ _ (by decide),
      SMap.get?_ite_insert_ne _ _ _ _ _ (by decide), SMap.get?_ite_insert_ne _ _ _ _ _ (by decide),
      SMap.get?_ite_insert_ne _ _ _ _ _ (by decide), SMap.get?_ite_insert_ne _ _ _ _ _ (by decide),
      SMap.get?_ite_insert_self]
    by_cases h : input.ContentDisposition = ("") <;> simp [h, SMap.get?]
  · rw [get?_marshalHeaders_scalar input h_ContentEncoding (by decide)]
    simp only [scalarHeaders]
    rw [SMap.get?_ite_insert_ne _ _ _ _ _ (by decide), SMap.get?_ite_insert_ne _ _ _ _ _ (by decide),
      SMap.get?_ite_insert_ne _ _ _ _ _ (by decide), SMap.get?_ite_insert_ne _ _ _ _ _ (by decide),
      SMap.get?_ite_insert_ne _ _ _ _ _ (by decide), SMap.get?_ite_insert_self,
      SMap.get?_ite_insert_ne _ _ _ _ _ (by decide)]
    by_cases h : input.ContentEncoding = ("") <;> simp [h, SMap.get?]
  · rw [get?_marshalHeaders_scalar input h_ContentType (by decide)]
    simp only [scalarHeaders]
    rw [SMap.get?_ite_insert_ne _ _ _ _ _ (by decide), SMap.get?_ite_insert_ne _ _ _ _ _ (by decide),
      SMap.get?_ite_insert_ne _ _ _ _ _ (by decide), SMap.get?_ite_insert_ne _ _ _ _ _ (by decide),
      SMap.get?_ite_insert_self, SMap.get?_ite_insert_ne _ _ _ _ _ (by decide),
      SMap.get?_ite_insert_ne _ _ _ _ _ (by decide)]
    by_cases h : input.ContentType = ("") <;> simp [h, SMap.get?]
  · rw [get?_marshalHeaders_scalar input h_ETag (by decide)]
    simp only [scalarHeaders]
    rw [SMap.get?_ite_insert_ne _ _ _ _ _ (by decide), SMap.get?_ite_insert_ne _ _ _ _ _ (by decide),
      SMap.get?_ite_insert_ne _ _ _ _ _ (by decide), SMap.get?_ite_insert_self,
      SMap.get?_ite_insert_ne _ _ _ _ _ (by decide), SMap.get?_ite_insert_ne _ _ _ _ _ (by decide),
      SMap.get?_ite_insert_ne _ _ _ _ _ (by decide)]
    by_cases h : input.ETag = ("") <;> simp [h, SMap.get?]
  · rw [get?_marshalHeaders_scalar input h_TransferEncoding (by decide)]
    simp only [scalarHeaders]
    rw [SMap.get?_ite_insert_ne _ _ _ _ _ (by decide), SMap.get?_ite_insert_ne _ _ _ _ _ (by decide),
      SMap.get?_ite_insert_self, SMap.get?_ite_insert_ne _ _ _ _ _ (by decide),
      SMap.get?_ite_insert_ne _ _ _ _ _ (by decide), SMap.get?_ite_insert_ne _ _ _ _ _ (by decide),
      SMap.get?_ite_insert_ne _ _ _ _ _ (by decide)]
    by_cases h : input.TransferEncoding = ("") <;> simp [h, SMap.get?]
  · rw [get?_marshalHeaders_scalar input h_CopyFrom (by decide)]
    simp only [scalarHeaders]
    rw [SMap.get?_ite_insert_ne _ _ _ _ _ (by decide), SMap.get?_ite_insert_self,
      SMap.get?_ite_insert_ne _ _ _ _ _ (by decide), SMap.get?_ite_insert_ne _ _ _ _ _ (by decide),
      SMap.get?_ite_insert_ne _ _ _ _ _ (by decide), SMap.get?_ite_insert_ne _ _ _ _ _ (by decide),
      SMap.get?_ite_insert_ne _ _ _ _ _ (by decide)]
    by_cases h : input.CopyFrom = ("") <;> simp [h, SMap.get?]
  · rw [get?_marshalHeaders_scalar input h_DeleteAt (by decide)]
    simp only [scalarHeaders]
    rw [SMap.get?_ite_insert_self, SMap.get?_ite_insert_ne _ _ _ _ _ (by decide),
      SMap.get?_ite_insert_ne _ _ _ _ _ (by decide), SMap.get?_ite_insert_ne _ _ _ _ _ (by decide),
      SMap.get?_ite_insert_ne _ _ _ _ _ (by decide), SMap.get?_ite_insert_ne _ _ _ _ _ (by decide),
      SMap.get?_ite_insert_ne _ _ _ _ _ (by decide)]
    by_cases h : input.DeleteAt = 0 <;> simp [h, SMap.get?]
  · intro hnd k v hmem
    rw [marshalHeaders_eq]
    exact SMap.get?_append_of_some _ _ _ _ (get?_meta_block input.ObjectMetadata hnd k v hmem)

/-- C4 witness: a mixed input — present fields are found with their exact
values, an absent one is omitted, DeleteAt is rendered in decimal, and the
metadata entry is found under the prefixed name. -/
theorem marshal_omit_if_default_witness :
    SMap.get? (marshalHeaders
      { ContentType := ("text/plain"), DeleteAt := 1700000000,
        ObjectMetadata := [(("color"), ("red"))] }) h_ContentType = some ("text/plain") ∧
    SMap.get? (marshalHeaders
      { ContentType := ("text/plain"), DeleteAt := 1700000000,
        ObjectMetadata := [(("color"), ("red"))] }) h_ContentDisposition = none ∧
    SMap.get? (marshalHeaders
      { ContentType := ("text/plain"), DeleteAt := 1700000000,
        ObjectMetadata := [(("color"), ("red"))] }) h_DeleteAt = some ("1700000000") ∧
    SMap.get? (marshalHeaders
      { ContentType := ("text/plain"), DeleteAt := 1700000000,
        ObjectMetadata := [(("color"), ("red"))] }) (h_MetadataPrefix ++ ("color")) =
      some ("red") := by
  have h := marshal_omit_if_default
    { ContentType := ("text/plain"), DeleteAt := 1700000000,
      ObjectMetadata := [(("color"), ("red"))] }
  refine ⟨h.2.2.1.trans (by decide), h.1.trans (by decide), h.2.2.2.2.2.2.1.trans (by decide),
    h.2.2.2.2.2.2.2 (by decide) ("color") ("red") (by decide)⟩

/-- C7: marshaling the metadata mapping color ↦ red produces exactly the
header X-Object-Meta-color with value red, unmarshaling that header yields
the mapping back, and in general unmarshaling the headers produced by
marshaling a mapping with distinct keys returns the original mapping. -/
theorem metadata_roundtrip (input : CreateObjectInput) (obj : ObjectInfo)
    (hnd : (input.ObjectMetadata.map Prod.fst).Nodup) :
    marshalHeaders { ObjectMetadata := [(("color"), ("red"))] } =
      [(("X-Object-Meta-color"), ("red"))] ∧
    (∀ o, success { header := [(("X-Object-Meta-color"), [("red")])] } {} = .ok o →
      o.ObjectMetadata = [(("color"), ("red"))]) ∧
    (∀ o, success (respOfHeaders (marshalHeaders input)) obj = .ok o →
      o.ObjectMetadata = input.ObjectMetadata) := by
  refine ⟨by decide, ?_, ?_⟩
  · intro o ho
    have h4 := (success_ok_fields _ _ o ho).2.2.2
    rw [h4]
    decide
  · intro o ho
    have h4 := (success_ok_fields _ _ o ho).2.2.2
    rw [h4, metaOf_marshal]

/-- C7 witness: the round trip evaluated on a two-entry mapping alongside a
scalar header, which metadata extraction ignores. -/
theorem metadata_roundtrip_witness :
    success (respOfHeaders (marshalHeaders
      { ContentType := ("text/plain"),
        ObjectMetadata := [(("color"), ("red")), (("size"), ("xl"))] })) {} =
      .ok
        { ContentType := ("text/plain"),
          ObjectMetadata := [(("color"), ("red")), (("size"), ("xl"))] } ∧
    ((
      { ContentType := ("text/plain"),
        ObjectMetadata := [(("color"), ("red")), (("size"), ("xl"))] } : ObjectInfo)).ObjectMetadata =
      [(("color"), ("red")), (("size"), ("xl"))] := by
  constructor
  · decide
  · exact (metadata_roundtrip
      { ContentType := ("text/plain"),
        ObjectMetadata := [(("color"), ("red")), (("size"), ("xl"))] } {} (by decide)).2.2 _
      (by decide)

/-- C10 witness: the degenerate paths "c1/" and "/o1" are issued. -/
theorem degenerate_identifier_requests_witness :
    GetObject recordTransport
        { ID := (""), Name := (""), Container := ("c1"), Range := (""), Newest := false } =
      .error (.transport ("get:c1/")) ∧
    DeleteObject recordTransport { ID := (""), Name := ("o1"), Container := ("") } =
      .error (.transport ("delete:/o1")) := by
  have h := degenerate_identifier_requests ("c1") ("o1") ("") false (by decide) (by decide)
  constructor
  · exact h.1.2.2.trans (by decide)
  · exact h.2.2.1.trans (by decide)

end storage
